import Mathlib

/-!
Verification of the signal-and-execution core of an automated
perpetual-futures trading system, against its natural-language
specification.

The development shallowly embeds the Python sources:

* rope_line_strategy.py — the pure crossing strategy (RopeLineStrategy),
* strategy.py           — the moving-average (MBO/MBI) variant (Strategy),
* backtest.py           — the backtest replayer (Backtest),
* order_manager.py      — the live position ledger (OrderManager),
* precision_manager.py  — the tick/lot quantizer (PrecisionManager),
* rate_limiter.py       — the sliding-window rate governor (RateLimiter).

Numeric values are modelled as exact rationals (the Python sources use
floats and Decimal; all claim-relevant computations are arithmetic
identities that hold over the exact values).  Timestamps are natural
numbers.  Pandas dataframes become lists of candles ordered oldest
first; a rolling-window statistic read at iloc[-1] becomes the statistic
of the last w list entries.  Stateful methods become explicit
state-passing functions.

Rat.add and friends are irreducible by default, which blocks kernel
evaluation of concrete runs; they are restored to the default
reducibility so that decision procedures can evaluate the embedding.
-/

set_option allowUnsafeReducibility true in
attribute [semireducible] Rat.add Rat.mul Rat.sub Rat.inv Rat.div Rat.neg

set_option maxRecDepth 100000
set_option maxHeartbeats 12000000

/-! ## Core data model -/

/-- A candle (K-line row).  The sources also carry open and volume, but no
embedded operation ever reads them, so they are omitted. -/
structure Candle where
  ts : ℕ
  high : ℚ
  low : ℚ
  close : ℚ
deriving DecidableEq

/-- Signal outcomes of strategy.py / rope_line_strategy.py.  The spec calls
LONG OpenLong, SHORT OpenShort, CLOSE_LONG CloseLong, CLOSE_SHORT
CloseShort. -/
inductive SignalType
  | NONE
  | LONG
  | SHORT
  | CLOSE_LONG
  | CLOSE_SHORT
deriving DecidableEq

/-- Position state per instrument. -/
inductive Position
  | EMPTY
  | LONG
  | SHORT
deriving DecidableEq

/-- Binary maximum on rationals, mirroring pandas max over a window. -/
def qmax2 (a b : ℚ) : ℚ := if a ≤ b then b else a

/-- Binary minimum on rationals. -/
def qmin2 (a b : ℚ) : ℚ := if b ≤ a then b else a

/-- Maximum of a list (0 on the empty list; the sources only apply it to
nonempty windows). -/
def qMax : List ℚ → ℚ
  | [] => 0
  | a :: t => t.foldl qmax2 a

/-- Minimum of a list (0 on the empty list). -/
def qMin : List ℚ → ℚ
  | [] => 0
  | a :: t => t.foldl qmin2 a

/-- Sum of a list of rationals. -/
def qSum (l : List ℚ) : ℚ := l.foldl (· + ·) 0

/-- The last n entries of a list: df.iloc[-n:]. -/
def lastN {α : Type} (n : ℕ) (l : List α) : List α := l.drop (l.length - n)

/-- Timestamp of the final row: df.index[-1] (0 on an empty frame; the
sources never evaluate it on an empty frame). -/
def lastTs (df : List Candle) : ℕ := ((df.getLast?).map Candle.ts).getD 0

/-- Close of the final row: df['close'].iloc[-1]. -/
def lastClose (df : List Candle) : ℚ := ((df.getLast?).map Candle.close).getD 0

/-- Absolute value as the sources compute it. -/
def myAbs (q : ℚ) : ℚ := if q < 0 then -q else q

/-! ## rope_line_strategy.py — the pure crossing strategy -/

namespace RopeLineStrategy

/-- rope_line_strategy.py lines 63-118.  Computes
(HHV(high, period) + LLV(low, period)) / 2 over the last period candles,
excluding the final (possibly in-progress) row when excludeCurrent is
true.  Returns 0.0 on insufficient data. -/
def calculate_rope_line (ropePeriod : ℕ) (df : List Candle) (excludeCurrent : Bool) : ℚ :=
  let requiredLength := if excludeCurrent then ropePeriod + 1 else ropePeriod
  if df.length < requiredLength then 0
  else
    let dfForCalc := if excludeCurrent then df.dropLast else df
    if dfForCalc.length < ropePeriod then 0
    else
      let recentData := lastN ropePeriod dfForCalc
      (qMax (recentData.map Candle.high) + qMin (recentData.map Candle.low)) / 2

/-- Per-contract state dictionary of RopeLineStrategy (contract_states
entry).  Fields are optional because the Python dict starts empty.  The
last_update_time wall-clock field is never read and is omitted. -/
structure State where
  ropeLine : Option ℚ := none
  currentPrice : Option ℚ := none
  lastSignalTime : Option ℕ := none
deriving DecidableEq

/-- rope_line_strategy.py lines 120-220.  Generates a signal from the
reference line, the live price and the current position, with the
per-candle dedup guard; returns the signal and the updated per-contract
state. -/
def generate_signal (ropePeriod : ℕ) (s : State) (df : List Candle)
    (pos : Position) (price : ℚ) : SignalType × State :=
  let ropeLine := calculate_rope_line ropePeriod df true
  if ropeLine = 0 then (SignalType.NONE, s)
  else
    let s1 : State := { s with
      ropeLine := some ropeLine
      currentPrice := some price }
    let currentTimestamp := lastTs df
    if s1.lastSignalTime = some currentTimestamp then (SignalType.NONE, s1)
    else
      let signal :=
        if price > ropeLine then
          match pos with
          | Position.EMPTY => SignalType.LONG
          | Position.SHORT => SignalType.LONG
          | Position.LONG => SignalType.NONE
        else if price < ropeLine then
          match pos with
          | Position.EMPTY => SignalType.SHORT
          | Position.LONG => SignalType.SHORT
          | Position.SHORT => SignalType.NONE
        else SignalType.NONE
      if signal ≠ SignalType.NONE then
        (signal, { s1 with lastSignalTime := some currentTimestamp })
      else (signal, s1)

/-- Runs a sequence of evaluate calls (history, position, price) through
generate_signal, threading the per-contract state, and pairs every call
with the signal it produced. -/
def run_evaluates (ropePeriod : ℕ) (s : State) :
    List (List Candle × Position × ℚ) →
    List ((List Candle × Position × ℚ) × SignalType) × State
  | [] => ([], s)
  | c :: rest =>
    let r := generate_signal ropePeriod s c.1 c.2.1 c.2.2
    let t := run_evaluates ropePeriod r.2 rest
    ((c, r.1) :: t.1, t.2)

end RopeLineStrategy

/-! ## strategy.py — the moving-average (MBO/MBI) variant -/

namespace Strategy

/-- Per-contract state dictionary of Strategy.  The mbi cache stores
none for NaN (pandas diff of a one-entry rolling column). -/
structure State where
  mbo : Option ℚ := none
  mbi : Option (Option ℚ) := none
  ropeLine : Option ℚ := none
  currentPrice : Option ℚ := none
  lastSignalTime : Option ℕ := none
deriving DecidableEq

/-- Value at iloc[-1] of close.rolling(w).mean(). -/
def maLast (w : ℕ) (closes : List ℚ) : ℚ := qSum (lastN w closes) / (w : ℚ)

/-- strategy.py lines 52-87.  MBO = MA(short) - MA(long) at the final row;
MBI = diff of MBO at the final row.  Returns (0, some 0) on insufficient
data (the source returns the floats (0.0, 0.0)); returns (mbo, none)
when the previous rolling value does not exist, in which case the pandas
diff is NaN (requires maShort ≤ maLong, which holds at every call
site). -/
def calculate_mbo_mbi (maShort maLong : ℕ) (closes : List ℚ) : ℚ × Option ℚ :=
  if closes.length < maLong then (0, some 0)
  else
    let mbo := maLast maShort closes - maLast maLong closes
    if closes.length < maLong + 1 then (mbo, none)
    else (mbo, some (mbo - (maLast maShort closes.dropLast - maLast maLong closes.dropLast)))

/-- strategy.py lines 89-114.  The MA-variant reference line: rolling max
of highs and rolling min of lows over ropePeriod rows read at iloc[-1] —
note that this window INCLUDES the final (possibly in-progress) row. -/
def calculate_rope_line (ropePeriod : ℕ) (df : List Candle) : ℚ :=
  if df.length < ropePeriod then 0
  else
    (qMax ((lastN ropePeriod df).map Candle.high)
      + qMin ((lastN ropePeriod df).map Candle.low)) / 2

/-- strategy.py lines 116-215.  Momentum-filtered signal generation.  A
NaN mbi (modelled none) fails both the mbi > 0 and mbi < 0 tests, as NaN
comparisons do in Python. -/
def generate_signal (maShort maLong ropePeriod : ℕ) (s : State) (df : List Candle)
    (pos : Position) (price : ℚ) : SignalType × State :=
  let mb := calculate_mbo_mbi maShort maLong (df.map Candle.close)
  let ropeLine := calculate_rope_line ropePeriod df
  let s1 : State := { s with
    mbo := some mb.1
    mbi := some mb.2
    ropeLine := some ropeLine
    currentPrice := some price }
  let currentTimestamp := lastTs df
  if s1.lastSignalTime = some currentTimestamp then (SignalType.NONE, s1)
  else
    let signal :=
      match mb.2 with
      | some m =>
        if m > 0 then
          if price > ropeLine then
            match pos with
            | Position.EMPTY => SignalType.LONG
            | Position.SHORT => SignalType.LONG
            | Position.LONG => SignalType.NONE
          else if price < ropeLine ∧ pos = Position.LONG then SignalType.CLOSE_LONG
          else SignalType.NONE
        else if m < 0 then
          if price < ropeLine then
            match pos with
            | Position.EMPTY => SignalType.SHORT
            | Position.LONG => SignalType.SHORT
            | Position.SHORT => SignalType.NONE
          else if price > ropeLine ∧ pos = Position.SHORT then SignalType.CLOSE_SHORT
          else SignalType.NONE
        else SignalType.NONE
      | none => SignalType.NONE
    if signal ≠ SignalType.NONE then
      (signal, { s1 with lastSignalTime := some currentTimestamp })
    else (signal, s1)

/-- strategy.py lines 217-250 (identical in rope_line_strategy.py lines
222-257). -/
def check_stop_loss (entryPrice currentPrice : ℚ) (pos : Position) (stopLossPct : ℚ) : Bool :=
  match pos with
  | Position.LONG => (entryPrice - currentPrice) / entryPrice ≥ stopLossPct
  | Position.SHORT => (currentPrice - entryPrice) / entryPrice ≥ stopLossPct
  | Position.EMPTY => false

/-- strategy.py lines 252-285. -/
def check_take_profit (entryPrice currentPrice : ℚ) (pos : Position) (takeProfitPct : ℚ) : Bool :=
  match pos with
  | Position.LONG => (currentPrice - entryPrice) / entryPrice ≥ takeProfitPct
  | Position.SHORT => (entryPrice - currentPrice) / entryPrice ≥ takeProfitPct
  | Position.EMPTY => false

end Strategy

/-! ## backtest.py — the backtest replayer -/

namespace Backtest

/-- Close reasons; backtest.py uses the strings 止损 (stop loss), 止盈
(take profit), 平多 (close long), 平空 (close short). -/
inductive CloseReason
  | stopLoss
  | takeProfit
  | closeLong
  | closeShort
deriving DecidableEq

/-- A record appended to self.trades on every close
(backtest.py lines 218-231).  The duration field (hours between entry
and exit) is derivable from the two times and is omitted. -/
structure TradeRec where
  position : Position
  entry_price : ℚ
  exit_price : ℚ
  size : ℚ
  pnl : ℚ
  pnl_pct : ℚ
  commission : ℚ
  entry_time : ℕ
  exit_time : ℕ
  reason : CloseReason
deriving DecidableEq

/-- An equity-curve entry (backtest.py lines 170-175). -/
structure EquityPoint where
  timestamp : ℕ
  capital : ℚ
  unrealized_pnl : ℚ
  total_equity : ℚ
deriving DecidableEq

/-- Constructor arguments of Backtest plus the Strategy periods it drives. -/
structure Config where
  maShort : ℕ
  maLong : ℕ
  ropePeriod : ℕ
  initial_capital : ℚ
  slippage : ℚ
  commission : ℚ
deriving DecidableEq

/-- backtest.py lines 183-188: buy legs pay up, sell legs pay down. -/
def apply_slippage (slippage price : ℚ) (buy : Bool) : ℚ :=
  if buy then price * (1 + slippage) else price * (1 - slippage)

/-- The mutable run state of Backtest.run.  opensCount and
signalClosesCount are ghost instrumentation counting position opens and
signal-driven closes; they alter no behaviour. -/
structure RunState where
  capital : ℚ
  trades : List TradeRec
  equity_curve : List EquityPoint
  strat : Strategy.State
  current_position : Position
  entry_price : ℚ
  entry_time : ℕ
  opensCount : ℕ
  signalClosesCount : ℕ
deriving DecidableEq

/-- backtest.py lines 190-233: apply exit-leg slippage directionally,
compute gross P&L, subtract commission, update capital and append the
trade record. -/
def close_position (cfg : Config) (pos : Position) (entryPrice exitRaw size : ℚ)
    (entryTime exitTime : ℕ) (reason : CloseReason) (st : RunState) : RunState :=
  let exitPrice := if pos = Position.LONG then apply_slippage cfg.slippage exitRaw false
                   else apply_slippage cfg.slippage exitRaw true
  let gross := if pos = Position.LONG then (exitPrice - entryPrice) * size
               else (entryPrice - exitPrice) * size
  let commissionCost := (entryPrice + exitPrice) * size * cfg.commission
  let pnl := gross - commissionCost
  { st with
    capital := st.capital + pnl
    trades := st.trades ++ [{
      position := pos
      entry_price := entryPrice
      exit_price := exitPrice
      size := size
      pnl := pnl
      pnl_pct := pnl / (entryPrice * size) * 100
      commission := commissionCost
      entry_time := entryTime
      exit_time := exitTime
      reason := reason }] }

/-- One iteration of the candle loop of backtest.py lines 85-175, at
index i.  A stop-loss or take-profit close hits a continue statement in
the source, skipping both signal generation and the equity-curve entry
for that candle. -/
def step (cfg : Config) (positionSize stopLossPct takeProfitPct : ℚ) (df : List Candle)
    (st : RunState) (i : ℕ) : RunState :=
  let currentData := df.take (i + 1)
  let currentPrice := lastClose currentData
  let currentTime := lastTs currentData
  if st.current_position ≠ Position.EMPTY ∧
      Strategy.check_stop_loss st.entry_price currentPrice st.current_position stopLossPct = true then
    { close_position cfg st.current_position st.entry_price currentPrice positionSize
        st.entry_time currentTime CloseReason.stopLoss st with
      current_position := Position.EMPTY }
  else if st.current_position ≠ Position.EMPTY ∧
      Strategy.check_take_profit st.entry_price currentPrice st.current_position takeProfitPct = true then
    { close_position cfg st.current_position st.entry_price currentPrice positionSize
        st.entry_time currentTime CloseReason.takeProfit st with
      current_position := Position.EMPTY }
  else
    let sg := Strategy.generate_signal cfg.maShort cfg.maLong cfg.ropePeriod st.strat
      currentData st.current_position currentPrice
    let st1 := { st with strat := sg.2 }
    let st2 :=
      if sg.1 = SignalType.LONG then
        let stc := if st1.current_position = Position.SHORT then
            { close_position cfg Position.SHORT st1.entry_price currentPrice positionSize
                st1.entry_time currentTime CloseReason.closeShort st1 with
              signalClosesCount := st1.signalClosesCount + 1 }
          else st1
        { stc with
          current_position := Position.LONG
          entry_price := apply_slippage cfg.slippage currentPrice true
          entry_time := currentTime
          opensCount := stc.opensCount + 1 }
      else if sg.1 = SignalType.SHORT then
        let stc := if st1.current_position = Position.LONG then
            { close_position cfg Position.LONG st1.entry_price currentPrice positionSize
                st1.entry_time currentTime CloseReason.closeLong st1 with
              signalClosesCount := st1.signalClosesCount + 1 }
          else st1
        { stc with
          current_position := Position.SHORT
          entry_price := apply_slippage cfg.slippage currentPrice false
          entry_time := currentTime
          opensCount := stc.opensCount + 1 }
      else if sg.1 = SignalType.CLOSE_LONG ∧ st1.current_position = Position.LONG then
        { close_position cfg Position.LONG st1.entry_price currentPrice positionSize
            st1.entry_time currentTime CloseReason.closeLong st1 with
          current_position := Position.EMPTY
          signalClosesCount := st1.signalClosesCount + 1 }
      else if sg.1 = SignalType.CLOSE_SHORT ∧ st1.current_position = Position.SHORT then
        { close_position cfg Position.SHORT st1.entry_price currentPrice positionSize
            st1.entry_time currentTime CloseReason.closeShort st1 with
          current_position := Position.EMPTY
          signalClosesCount := st1.signalClosesCount + 1 }
      else st1
    let unreal := if st2.current_position = Position.LONG then
                    (currentPrice - st2.entry_price) * positionSize
                  else if st2.current_position = Position.SHORT then
                    (st2.entry_price - currentPrice) * positionSize
                  else 0
    { st2 with
      equity_curve := st2.equity_curve ++ [{
        timestamp := currentTime
        capital := st2.capital
        unrealized_pnl := unreal
        total_equity := st2.capital + unreal }] }

/-- Running maxima of a list, mirroring pandas cummax. -/
def cummaxAux : ℚ → List ℚ → List ℚ
  | _, [] => []
  | m, a :: t =>
    let m2 := qmax2 m a
    m2 :: cummaxAux m2 t

/-- pandas Series.cummax. -/
def cummaxList : List ℚ → List ℚ
  | [] => []
  | a :: t => a :: cummaxAux a t

/-- The performance report of backtest.py lines 235-287.  The
sharpe_ratio field (an irrational square-root expression) is not needed
by any claim and is omitted; in the zero-trade branch the source dict
carries only total_trades, win_rate, total_pnl, total_return,
max_drawdown and sharpe_ratio, and the remaining fields are modelled as
0. -/
structure Report where
  total_trades : ℕ
  winning_trades : ℕ
  losing_trades : ℕ
  win_rate : ℚ
  total_pnl : ℚ
  total_return : ℚ
  avg_win : ℚ
  avg_loss : ℚ
  profit_factor : ℚ
  max_drawdown : ℚ
  final_capital : ℚ
deriving DecidableEq

/-- backtest.py lines 235-287 (_calculate_results). -/
def calculate_results (cfg : Config) (st : RunState) : Report :=
  if st.trades = [] then
    { total_trades := 0
      winning_trades := 0
      losing_trades := 0
      win_rate := 0
      total_pnl := 0
      total_return := 0
      avg_win := 0
      avg_loss := 0
      profit_factor := 0
      max_drawdown := 0
      final_capital := 0 }
  else
    let totalTrades := st.trades.length
    let winning := st.trades.filter (fun t => t.pnl > 0)
    let losing := st.trades.filter (fun t => t.pnl ≤ 0)
    let totalPnl := qSum (st.trades.map TradeRec.pnl)
    let avgWin := if winning = [] then 0 else qSum (winning.map TradeRec.pnl) / (winning.length : ℚ)
    let avgLoss := if losing = [] then 0 else qSum (losing.map TradeRec.pnl) / (losing.length : ℚ)
    let eq := st.equity_curve.map EquityPoint.total_equity
    let dd := List.zipWith (fun e m => (e - m) / m) eq (cummaxList eq)
    { total_trades := totalTrades
      winning_trades := winning.length
      losing_trades := losing.length
      win_rate := (winning.length : ℚ) / (totalTrades : ℚ) * 100
      total_pnl := totalPnl
      total_return := totalPnl / cfg.initial_capital * 100
      avg_win := avgWin
      avg_loss := avgLoss
      profit_factor := if avgLoss ≠ 0 then myAbs (avgWin / avgLoss) else 0
      max_drawdown := myAbs (qMin dd) * 100
      final_capital := st.capital }

/-- backtest.py lines 49-181 (run).  Resets the backtest-local state
(capital, positions, trades, equity curve) but NOT the strategy state,
then iterates candle indices from ma_long to the end.  Returns the
report together with the final run state (whose strat field is the
strategy state a second run would start from). -/
def run (cfg : Config) (positionSize stopLossPct takeProfitPct : ℚ) (df : List Candle)
    (strat0 : Strategy.State) : Report × RunState :=
  let init : RunState := {
    capital := cfg.initial_capital
    trades := []
    equity_curve := []
    strat := strat0
    current_position := Position.EMPTY
    entry_price := 0
    entry_time := 0
    opensCount := 0
    signalClosesCount := 0 }
  let final := (List.range' cfg.maLong (df.length - cfg.maLong)).foldl
    (step cfg positionSize stopLossPct takeProfitPct df) init
  (calculate_results cfg final, final)

end Backtest

/-! ## precision_manager.py — the quantizer -/

namespace PrecisionManager

/-- A registered instrument entry (set_contract_info, precision_manager.py
lines 19-33).  The source keeps tick_size as Decimal(str(tick_size)) and
derives price_precision as the number of digits after the decimal point
of str(tick_size); here a tick is the decimal number
tickNum / 10 ^ tickExp written with exactly tickExp fractional digits,
so price_precision = tickExp. -/
structure ContractInfo where
  tickNum : ℕ
  tickExp : ℕ
  size_precision : ℕ
deriving DecidableEq

/-- The rational value of the registered tick size. -/
def tickValue (info : ContractInfo) : ℚ := (info.tickNum : ℚ) / 10 ^ info.tickExp

/-- Python int() applied to a rational: truncation toward zero. -/
def pyTrunc (q : ℚ) : ℤ := if 0 ≤ q then ⌊q⌋ else ⌈q⌉

/-- precision_manager.py lines 55-62: the integer tick count the price is
aligned to.  down: int(ticks); up: int(ticks) + (1 if ticks > int(ticks)
else 0). -/
def aligned_ticks (info : ContractInfo) (price : ℚ) (up : Bool) : ℤ :=
  let ticks := price / tickValue info
  let t0 := pyTrunc ticks
  if up then t0 + (if (t0 : ℚ) < ticks then 1 else 0) else t0

/-- Decimal rendering of n / 10 ^ p with exactly p fractional digits,
mirroring the f-string formatting of a Decimal that has p fractional
digits (which is exact). -/
def decimalString (n : ℤ) (p : ℕ) : String :=
  let sign := if n < 0 then "-" else ""
  let m := n.natAbs
  if p = 0 then sign ++ Nat.repr m
  else
    let ip := m / 10 ^ p
    let fp := m % 10 ^ p
    let fs := Nat.repr fp
    let pad := String.mk (List.replicate (p - fs.length) '0')
    sign ++ Nat.repr ip ++ "." ++ pad ++ fs

/-- precision_manager.py lines 35-72 (round_price), registered-instrument
branch.  The aligned price is tick_size * aligned_ticks =
(tickNum * aligned_ticks) / 10 ^ tickExp, formatted at price_precision =
tickExp fractional digits. -/
def round_price (info : ContractInfo) (price : ℚ) (up : Bool) : String :=
  decimalString (info.tickNum * aligned_ticks info price up) info.tickExp

/-- The rational value denoted by the string round_price returns. -/
def round_price_val (info : ContractInfo) (price : ℚ) (up : Bool) : ℚ :=
  tickValue info * aligned_ticks info price up

/-- Round half to even of a rational to an integer, the default Decimal
rounding used by f-string formatting. -/
def halfEvenRound (q : ℚ) : ℤ :=
  let f := ⌊q⌋
  if q - f < 1 / 2 then f
  else if 1 / 2 < q - f then f + 1
  else if f % 2 = 0 then f else f + 1

/-- precision_manager.py lines 74-99 (round_size), registered-instrument
branch, as the rational value of the returned string.  quantize_str is
'0.' + '0' * (precision - 1) + '1': for precision ≥ 1 this is
10 ^ -precision and ROUND_DOWN truncates toward zero at precision
fractional digits, after which the f-string rendering at precision
digits is exact; for precision = 0 the string is '0.1', so the value is
truncated at ONE fractional digit and then rounded half-even to an
integer by the f"{x:.0f}" rendering. -/
def round_size_val (precision : ℕ) (size : ℚ) : ℚ :=
  let qexp := if precision = 0 then 1 else precision
  let truncated : ℚ := (pyTrunc (size * 10 ^ qexp) : ℚ) / 10 ^ qexp
  if precision = 0 then (halfEvenRound truncated : ℚ) else truncated

/-- precision_manager.py lines 133-150 (apply_slippage): buy legs pay up,
sell legs pay down. -/
def apply_slippage (price : ℚ) (buy : Bool) (slippagePct : ℚ) : ℚ :=
  if buy then price * (1 + slippagePct) else price * (1 - slippagePct)

end PrecisionManager

/-! ## order_manager.py — the live position ledger -/

namespace OrderManager

/-- order_manager.py lines 19-28 (PositionInfo).  contract_id, symbol,
entry_time and order_id do not affect any claim-relevant behaviour and
are omitted. -/
structure PositionInfo where
  position : Position
  entry_price : ℚ
  size : ℚ
deriving DecidableEq

/-- A trade_history entry (order_manager.py lines 328-338).  action is
平多 (closeLong) or 平空 (closeShort). -/
structure OMTrade where
  action : Backtest.CloseReason
  entry_price : ℚ
  close_price : ℚ
  size : ℚ
  pnl : ℚ
  pnl_pct : ℚ
deriving DecidableEq

/-- The ledger state for one instrument, together with the external
order sink modelled as an oracle of submission outcomes: the n-th
place_order call succeeds iff the n-th oracle entry is true. -/
structure State where
  position : Option PositionInfo
  trade_history : List OMTrade
  sink : List Bool
deriving DecidableEq

/-- order_manager.py lines 46-119 (place_order), reduced to its
success/failure outcome: on success (result code SUCCESS) an order id is
returned, otherwise None.  Price/size quantization and the
active_orders bookkeeping do not affect positions or trade history and
are not modelled here. -/
def place_order (s : State) : Bool × State :=
  match s.sink with
  | [] => (false, s)
  | b :: rest => (b, { s with sink := rest })

/-- order_manager.py lines 270-346 (close_position).  On a successful
close order: record the trade (P&L from the slippage-adjusted close
price, with NO commission term) and delete the position.  On a rejected
order: return False leaving position and history unchanged. -/
def close_position (currentPrice slippage : ℚ) (s : State) : Bool × State :=
  match s.position with
  | none => (false, s)
  | some pinfo =>
    if pinfo.position = Position.EMPTY then (false, s)
    else
      let buy := pinfo.position = Position.SHORT
      let closePrice := PrecisionManager.apply_slippage currentPrice buy slippage
      let r := place_order s
      if r.1 then
        let pnl := if pinfo.position = Position.LONG then
                     (closePrice - pinfo.entry_price) * pinfo.size
                   else (pinfo.entry_price - closePrice) * pinfo.size
        (true, { r.2 with
          position := none
          trade_history := r.2.trade_history ++ [{
            action := if pinfo.position = Position.LONG then Backtest.CloseReason.closeLong
                      else Backtest.CloseReason.closeShort
            entry_price := pinfo.entry_price
            close_price := closePrice
            size := pinfo.size
            pnl := pnl
            pnl_pct := pnl / (pinfo.entry_price * pinfo.size) * 100 }] })
      else (false, r.2)

/-- Current position direction (order_manager.py lines 348-352). -/
def get_position (s : State) : Position :=
  match s.position with
  | some p => p.position
  | none => Position.EMPTY

/-- order_manager.py lines 181-268 (execute_signal).  Note that in the
flip branches the result of the close leg is discarded by the source
(the await's return value is ignored), and the open leg proceeds
regardless. -/
def execute_signal (signal : SignalType) (currentPrice orderSize slippage : ℚ)
    (s : State) : Bool × State :=
  let currentPosition := get_position s
  match signal with
  | SignalType.LONG =>
    let s1 := if currentPosition = Position.SHORT then (close_position currentPrice slippage s).2
              else s
    let orderPrice := PrecisionManager.apply_slippage currentPrice true slippage
    let r := place_order s1
    if r.1 then
      (true, { r.2 with position := some {
        position := Position.LONG
        entry_price := orderPrice
        size := orderSize } })
    else (false, r.2)
  | SignalType.SHORT =>
    let s1 := if currentPosition = Position.LONG then (close_position currentPrice slippage s).2
              else s
    let orderPrice := PrecisionManager.apply_slippage currentPrice false slippage
    let r := place_order s1
    if r.1 then
      (true, { r.2 with position := some {
        position := Position.SHORT
        entry_price := orderPrice
        size := orderSize } })
    else (false, r.2)
  | SignalType.CLOSE_LONG =>
    if currentPosition = Position.LONG then (true, (close_position currentPrice slippage s).2)
    else (false, s)
  | SignalType.CLOSE_SHORT =>
    if currentPosition = Position.SHORT then (true, (close_position currentPrice slippage s).2)
    else (false, s)
  | SignalType.NONE => (false, s)

/-- order_manager.py lines 366-368: total P&L is the sum of the recorded
per-trade pnl values. -/
def calculate_total_pnl (s : State) : ℚ := qSum (s.trade_history.map OMTrade.pnl)

end OrderManager

/-! ## rate_limiter.py — the rate governor -/

namespace RateLimiter

/-- Constructor arguments of RateLimiter (rate_limiter.py lines 18-37). -/
structure Config where
  maxPerSecond : ℕ
  maxPerMinute : ℕ
deriving DecidableEq

/-- One of the two while loops of acquire (rate_limiter.py lines 46-57
for the second window with w = 1, lines 60-71 for the minute window with
w = 60): while the queue is at capacity, compute the wait until the
oldest entry leaves the trailing window; if positive, sleep exactly that
long (after which the re-check finds wait = 0 and evicts), otherwise
evict immediately.  Returns the surviving queue and the clock after all
waits.  The source indexes q[0] on a full queue, so a capacity of 0
would raise; the [] equation is only reached when cap = 0. -/
def wait_loop (cap : ℕ) (w : ℚ) : List ℚ → ℚ → List ℚ × ℚ
  | [], c => ([], c)
  | o :: rest, c =>
    if (o :: rest).length < cap then (o :: rest, c)
    else if 0 < w - (c - o) then wait_loop cap w rest (o + w)
    else wait_loop cap w rest c

/-- The governor state: the two timestamp queues, the current clock, the
ghost trace of all recorded admission timestamps (oldest first) and the
total_requests counter. -/
structure State where
  second_queue : List ℚ
  minute_queue : List ℚ
  clock : ℚ
  admitted : List ℚ
  total_requests : ℕ
deriving DecidableEq

/-- rate_limiter.py lines 39-76 (acquire).  gap models the real time
elapsed since the previous call (time.time() at entry).  Appending to a
deque(maxlen) would silently drop the oldest entry when full, but both
loops guarantee the queue is below capacity before the append, so a
plain append is faithful. -/
def acquire (cfg : Config) (gap : ℚ) (s : State) : State :=
  let c0 := s.clock + gap
  let p1 := wait_loop cfg.maxPerSecond 1 s.second_queue c0
  let p2 := wait_loop cfg.maxPerMinute 60 s.minute_queue p1.2
  { second_queue := p1.1 ++ [p2.2]
    minute_queue := p2.1 ++ [p2.2]
    clock := p2.2
    admitted := s.admitted ++ [p2.2]
    total_requests := s.total_requests + 1 }

/-- The freshly constructed governor. -/
def init : State := {
  second_queue := []
  minute_queue := []
  clock := 0
  admitted := []
  total_requests := 0 }

/-- A sequence of acquire calls separated by the given time gaps. -/
def runAcquires (cfg : Config) (gaps : List ℚ) (s0 : State) : State :=
  gaps.foldl (fun s g => acquire cfg g s) s0

end RateLimiter

/-! ## Spec-side definitions (refinement targets, following the spec's words) -/

namespace Spec

/-- Modelled from the spec (section 4.1 crossing rule): if currentPrice >
ReferenceLine: Empty→OpenLong, Short→OpenLong, Long→None; if
currentPrice < ReferenceLine: Empty→OpenShort, Long→OpenShort,
Short→None; equality→None.  OpenLong is SignalType.LONG, OpenShort is
SignalType.SHORT. -/
def crossingOutcome (price referenceLine : ℚ) (pos : Position) : SignalType :=
  if price > referenceLine then
    match pos with
    | Position.EMPTY => SignalType.LONG
    | Position.SHORT => SignalType.LONG
    | Position.LONG => SignalType.NONE
  else if price < referenceLine then
    match pos with
    | Position.EMPTY => SignalType.SHORT
    | Position.LONG => SignalType.SHORT
    | Position.SHORT => SignalType.NONE
  else SignalType.NONE

/-- Modelled from the spec (section 4.2 P&L rule): gross P&L is
(exitPrice - entryPrice) * size for a long and
(entryPrice - exitPrice) * size for a short. -/
def grossPnl (pos : Position) (entryPrice exitPrice size : ℚ) : ℚ :=
  if pos = Position.LONG then (exitPrice - entryPrice) * size
  else (entryPrice - exitPrice) * size

/-- Modelled from the spec (section 4.2):
commission = (entryPrice + exitPrice) * size * commissionRate. -/
def commission (entryPrice exitPrice size rate : ℚ) : ℚ :=
  (entryPrice + exitPrice) * size * rate

end Spec

/-! ## Concrete instances used by scenario and counterexample theorems -/

/-- Scenario A input: 51 flat 15-minute candles with high = low = close =
100, timestamps 0..50. -/
def flat51 : List Candle :=
  (List.range 51).map (fun j => { ts := j, high := 100, low := 100, close := 100 })

/-- A second history whose final-row timestamp differs (timestamps
1..51), used to interleave a signal for another candle. -/
def flat51shift : List Candle :=
  (List.range 51).map (fun j => { ts := j + 1, high := 100, low := 100, close := 100 })

/-- The in-progress row of flat51 with its high perturbed upward. -/
def perturbedLast : Candle := { ts := 50, high := 200, low := 100, close := 100 }

/-- A monotonically rising 300-candle series: flat candles with
high = low = close = 10000000 + j ^ 2 at timestamp j.  Over the whole
evaluated range the price stays above the reference line and the rise
after entry stays below the 5 percent take-profit threshold. -/
def c5Df : List Candle :=
  (List.range 300).map (fun j =>
    { ts := j, high := ((10000000 + j * j : ℕ) : ℚ), low := ((10000000 + j * j : ℕ) : ℚ),
      close := ((10000000 + j * j : ℕ) : ℚ) })

/-- Backtest configuration for the 300-candle run: MA periods 2/295, rope
period 3, and the source's default capital, slippage and commission. -/
def c5Cfg : Backtest.Config := {
  maShort := 2
  maLong := 295
  ropePeriod := 3
  initial_capital := 10000
  slippage := 1 / 1000
  commission := 4 / 10000 }

/-- The 300-candle backtest run from a fresh strategy state, with the
source's default stop-loss 2 percent and take-profit 5 percent. -/
def c5Run : Backtest.Report × Backtest.RunState :=
  Backtest.run c5Cfg 1 (2 / 100) (5 / 100) c5Df {}

/-- Closes of the series driving the two successive identical backtest
runs: one LONG signal at the first evaluated candle (index 5), a
take-profit close at index 7, and no further signal in either run. -/
def c10Closes : List ℕ :=
  [1000, 1000, 1000, 1000, 1300, 1500, 1500, 1833, 1833, 1833, 1833, 1833, 1833, 1833, 1833, 1833]

/-- The candle series for the two successive runs (flat candles). -/
def c10Df : List Candle :=
  (c10Closes.enum.map (fun p =>
    { ts := p.1, high := (p.2 : ℚ), low := (p.2 : ℚ), close := (p.2 : ℚ) }))

/-- Backtest configuration for the two successive runs. -/
def c10Cfg : Backtest.Config := {
  maShort := 2
  maLong := 5
  ropePeriod := 3
  initial_capital := 10000
  slippage := 1 / 1000
  commission := 4 / 10000 }

/-- First run() call on a fresh Backtest and Strategy pair. -/
def c10Run1 : Backtest.Report × Backtest.RunState :=
  Backtest.run c10Cfg 1 (2 / 100) (5 / 100) c10Df {}

/-- Second run() call with identical arguments on the same instances: the
backtest-local state is reset by run itself, but the strategy state
(carrying the dedup timestamp) persists from the first run. -/
def c10Run2 : Backtest.Report × Backtest.RunState :=
  Backtest.run c10Cfg 1 (2 / 100) (5 / 100) c10Df c10Run1.2.strat

/-! ## Rate-governor proof-side predicates -/

namespace RateLimiter

/-- Number of recorded admissions inside the trailing window of length w
ending at time t (the half-open interval from t - w exclusive to t
inclusive). -/
def windowCount (w t : ℚ) (tr : List ℚ) : ℕ :=
  tr.countP (fun a => decide (t - w < a ∧ a ≤ t))

/-- Any cap + 1 admissions that are at least cap indices apart span at
least w: the per-window admission bound in gap form. -/
def GapOK (cap : ℕ) (w : ℚ) (tr : List ℚ) : Prop :=
  ∀ i j : ℕ, ∀ hi : i < tr.length, ∀ hj : j < tr.length,
    i + cap ≤ j → tr.get ⟨i, hi⟩ + w ≤ tr.get ⟨j, hj⟩

/-- Queue invariant for one window: the queue is a suffix of the full
admission trace, it is within capacity, and every admission evicted from
it left its trailing window at least w before the current clock. -/
def QInv (cap : ℕ) (w : ℚ) (queue trace : List ℚ) (clock : ℚ) : Prop :=
  queue.length ≤ cap ∧ ∃ p, trace = p ++ queue ∧ ∀ x ∈ p, x + w ≤ clock

/-- The full governor invariant. -/
def Inv (cfg : Config) (s : State) : Prop :=
  QInv cfg.maxPerSecond 1 s.second_queue s.admitted s.clock ∧
  QInv cfg.maxPerMinute 60 s.minute_queue s.admitted s.clock ∧
  (∀ x ∈ s.admitted, x ≤ s.clock) ∧
  s.admitted.Sorted (· ≤ ·) ∧
  GapOK cfg.maxPerSecond 1 s.admitted ∧
  GapOK cfg.maxPerMinute 60 s.admitted

end RateLimiter


/-- A live ledger holding a long 1 @ 100 whose next order will be
accepted. -/
def omLong100 : OrderManager.State := {
  position := some { position := Position.LONG, entry_price := 100, size := 1 }
  trade_history := []
  sink := [true] }

/-- A live ledger holding a short 1 @ 100 whose next order (the close
leg of a flip) will be REJECTED and whose following order (the open
leg) will be accepted. -/
def omShortFlip : OrderManager.State := {
  position := some { position := Position.SHORT, entry_price := 100, size := 1 }
  trade_history := []
  sink := [false, true] }

/-- Placeholder trade used only as a headD default. -/
def omTradeDummy : OrderManager.OMTrade := {
  action := Backtest.CloseReason.closeLong
  entry_price := 0
  close_price := 0
  size := 0
  pnl := 0
  pnl_pct := 0 }

/-- Boolean test that a list of rationals is strictly increasing. -/
def strictlyIncreasingB : List ℚ → Bool
  | [] => true
  | [_] => true
  | a :: b :: t => decide (a < b) && strictlyIncreasingB (b :: t)

/-! ## Theorems -/

/-- Both branches of a conditional pair with equal first components. -/
theorem prod_fst_ite {α β : Type} (c : Prop) [Decidable c] (a : α) (x y : β) :
    (if c then (a, x) else (a, y)).1 = a := by
  split <;> rfl

/-- Dedup guard: a call whose final-row timestamp equals the stored
last_signal_time returns NONE and leaves last_signal_time unchanged. -/
theorem RopeLineStrategy.generate_signal_same_ts (period : ℕ) (s : RopeLineStrategy.State)
    (df : List Candle) (pos : Position) (price : ℚ) (T : ℕ)
    (hs : s.lastSignalTime = some T) (ht : lastTs df = T) :
    (RopeLineStrategy.generate_signal period s df pos price).1 = SignalType.NONE ∧
    (RopeLineStrategy.generate_signal period s df pos price).2.lastSignalTime = some T := by
  by_cases h1 : RopeLineStrategy.calculate_rope_line period df true = 0 <;>
    simp [RopeLineStrategy.generate_signal, h1, hs, ht]

/-- A call that returns NONE leaves last_signal_time unchanged. -/
theorem RopeLineStrategy.generate_signal_none_keeps (period : ℕ) (s : RopeLineStrategy.State)
    (df : List Candle) (pos : Position) (price : ℚ)
    (h : (RopeLineStrategy.generate_signal period s df pos price).1 = SignalType.NONE) :
    (RopeLineStrategy.generate_signal period s df pos price).2.lastSignalTime =
      s.lastSignalTime := by
  simp only [RopeLineStrategy.generate_signal] at h ⊢
  split_ifs at h ⊢ <;> first | rfl | simp_all

/-- C1 (amended).  For every candle history with at least period + 1
rows, the PURE CROSSING strategy's reference line equals
(highest high + lowest low) / 2 over the period completed candles that
immediately precede the final row, and is unchanged by any mutation of
that final in-progress row.  (The moving-average variant does NOT have
this invariance; see the counterexample.) -/
theorem C1_referenceLine_excludes_inprogress (period : ℕ) (df : List Candle) (c : Candle)
    (h : period + 1 ≤ df.length) :
    RopeLineStrategy.calculate_rope_line period df true =
      RopeLineStrategy.calculate_rope_line period (df.dropLast ++ [c]) true ∧
    RopeLineStrategy.calculate_rope_line period df true =
      (qMax ((lastN period df.dropLast).map Candle.high)
        + qMin ((lastN period df.dropLast).map Candle.low)) / 2 := by
  have hlen : (df.dropLast ++ [c]).length = df.length := by
    simp only [List.length_append, List.length_dropLast, List.length_cons, List.length_nil]
    omega
  have hdl : (df.dropLast ++ [c]).dropLast = df.dropLast := List.dropLast_concat
  have hd : ¬ (df.length < period + 1) := by omega
  have hd2 : ¬ (df.dropLast.length < period) := by
    simp only [List.length_dropLast]; omega
  constructor
  · simp [RopeLineStrategy.calculate_rope_line, hlen, hdl]
  · simp [RopeLineStrategy.calculate_rope_line, hd]
    intro h3
    exact absurd h3 (by omega)

/-- C1 (counterexample).  The claim extends the invariance to the
moving-average variant, whose reference line (strategy.py lines 89-114)
includes the final row in its rolling window: on 51 flat candles at 100,
perturbing the in-progress row's high from 100 to 200 moves the
MA-variant reference line from 100 to 150. -/
theorem C1_ma_variant_counterexample :
    50 + 1 ≤ flat51.length ∧
    Strategy.calculate_rope_line 50 flat51 = 100 ∧
    Strategy.calculate_rope_line 50 (flat51.dropLast ++ [perturbedLast]) = 150 ∧
    Strategy.calculate_rope_line 50 flat51 ≠
      Strategy.calculate_rope_line 50 (flat51.dropLast ++ [perturbedLast]) := by
  decide

/-- C2.  The crossing rule of the pure crossing strategy: with sufficient
history, a nonzero reference line and no dedup suppression, the emitted
signal refines the spec's crossing table; and on 51 flat candles at 100
the reference line is 100 and a price of 101 with an Empty position
yields LONG (OpenLong). -/
theorem C2_crossing_rule :
    (∀ (period : ℕ) (s : RopeLineStrategy.State) (df : List Candle) (pos : Position) (price : ℚ),
      period + 1 ≤ df.length →
      RopeLineStrategy.calculate_rope_line period df true ≠ 0 →
      s.lastSignalTime ≠ some (lastTs df) →
      (RopeLineStrategy.generate_signal period s df pos price).1 =
        Spec.crossingOutcome price (RopeLineStrategy.calculate_rope_line period df true) pos) ∧
    RopeLineStrategy.calculate_rope_line 50 flat51 true = 100 ∧
    (RopeLineStrategy.generate_signal 50 {} flat51 Position.EMPTY 101).1 = SignalType.LONG := by
  refine ⟨?_, by decide, by decide⟩
  intro period s df pos price _hlen hrope hdedup
  simp only [RopeLineStrategy.generate_signal, Spec.crossingOutcome]
  rw [if_neg hrope, if_neg hdedup]
  rcases pos <;> split_ifs <;> simp_all [prod_fst_ite]

/-- C2 witness: the general part applied at the Scenario A input. -/
theorem C2_crossing_rule_witness :
    (RopeLineStrategy.generate_signal 50 {} flat51 Position.EMPTY 101).1 =
      Spec.crossingOutcome 101 (RopeLineStrategy.calculate_rope_line 50 flat51 true)
        Position.EMPTY :=
  C2_crossing_rule.1 50 {} flat51 Position.EMPTY 101 (by decide) (by decide) (by decide)

/-- C3 (counterexample).  The dedup guard stores only the single most
recent signal timestamp, so interleaving a signal for a different
completed-candle timestamp resets it: timestamp 50 receives a non-None
outcome twice (calls 1 and 3), with a call for timestamp 51 interleaved. -/
theorem C3_dedup_counterexample :
    (RopeLineStrategy.generate_signal 50 {} flat51 Position.EMPTY 101).1 = SignalType.LONG ∧
    (RopeLineStrategy.generate_signal 50
      (RopeLineStrategy.generate_signal 50 {} flat51 Position.EMPTY 101).2
      flat51shift Position.EMPTY 99).1 = SignalType.SHORT ∧
    (RopeLineStrategy.generate_signal 50
      (RopeLineStrategy.generate_signal 50
        (RopeLineStrategy.generate_signal 50 {} flat51 Position.EMPTY 101).2
        flat51shift Position.EMPTY 99).2
      flat51 Position.EMPTY 101).1 = SignalType.LONG ∧
    lastTs flat51 = 50 ∧ lastTs flat51shift = 51 := by
  decide

/-- C3 (amended).  Once a non-None outcome has been produced for
timestamp T (stored in last_signal_time), every later evaluate call
whose final-row timestamp is T returns NONE, PROVIDED no interleaved
call emits a non-None outcome for a different timestamp (such an
emission overwrites the stored timestamp and re-arms T). -/
theorem C3_dedup_per_timestamp (period : ℕ) (s : RopeLineStrategy.State) (T : ℕ)
    (calls : List (List Candle × Position × ℚ))
    (hs : s.lastSignalTime = some T)
    (hother : ∀ p ∈ (RopeLineStrategy.run_evaluates period s calls).1,
      lastTs p.1.1 ≠ T → p.2 = SignalType.NONE) :
    ∀ p ∈ (RopeLineStrategy.run_evaluates period s calls).1,
      lastTs p.1.1 = T → p.2 = SignalType.NONE := by
  induction calls generalizing s with
  | nil =>
    intro p hp
    simp [RopeLineStrategy.run_evaluates] at hp
  | cons c rest ih =>
    simp only [RopeLineStrategy.run_evaluates] at hother ⊢
    by_cases hc : lastTs c.1 = T
    · have hr := RopeLineStrategy.generate_signal_same_ts period s c.1 c.2.1 c.2.2 T hs hc
      intro p hp hpt
      rcases List.mem_cons.mp hp with heq | hp2
      · rw [heq]; exact hr.1
      · exact ih (RopeLineStrategy.generate_signal period s c.1 c.2.1 c.2.2).2 hr.2
          (fun q hq hqt => hother q (List.mem_cons_of_mem _ hq) hqt) p hp2 hpt
    · have hnone : (RopeLineStrategy.generate_signal period s c.1 c.2.1 c.2.2).1 =
          SignalType.NONE :=
        hother _ (List.mem_cons_self _ _) hc
      have hkeep := RopeLineStrategy.generate_signal_none_keeps period s c.1 c.2.1 c.2.2 hnone
      intro p hp hpt
      rcases List.mem_cons.mp hp with heq | hp2
      · rw [heq]; exact hnone
      · exact ih (RopeLineStrategy.generate_signal period s c.1 c.2.1 c.2.2).2
          (hkeep.trans hs)
          (fun q hq hqt => hother q (List.mem_cons_of_mem _ hq) hqt) p hp2 hpt

/-- C3 (amended) witness: after a signal for timestamp 50, a repeat call
with timestamp 50, position Empty and a moved price returns NONE. -/
theorem C3_dedup_per_timestamp_witness :
    ((RopeLineStrategy.run_evaluates 50 { lastSignalTime := some 50 }
        [(flat51, Position.EMPTY, (101 : ℚ))]).1.headD
      ((flat51, Position.EMPTY, 101), SignalType.LONG)).2 = SignalType.NONE := by
  have h := C3_dedup_per_timestamp 50 { lastSignalTime := some 50 } 50
    [(flat51, Position.EMPTY, (101 : ℚ))] rfl (by decide)
  exact h _ (by decide) (by decide)

/-- C4 (amended).  The backtest ledger records
netPnL = grossPnL - commission with directional slippage on the exit leg
and commission = (entry + exit) * size * rate, and the report's
total_pnl is the sum of recorded trade P&L; the LIVE ledger
(order_manager.py) records the slippage-adjusted gross P&L with NO
commission deducted, and its totalPnL is the sum of the recorded
per-trade P&L values. -/
theorem C4_pnl_accounting :
    (∀ (cfg : Backtest.Config) (pos : Position) (entryPrice exitRaw size : ℚ)
       (entryTime exitTime : ℕ) (reason : Backtest.CloseReason) (st : Backtest.RunState),
      ∃ rec : Backtest.TradeRec,
        (Backtest.close_position cfg pos entryPrice exitRaw size entryTime exitTime reason st).trades
          = st.trades ++ [rec] ∧
        rec.exit_price = (if pos = Position.LONG then Backtest.apply_slippage cfg.slippage exitRaw false
                          else Backtest.apply_slippage cfg.slippage exitRaw true) ∧
        rec.commission = Spec.commission entryPrice rec.exit_price size cfg.commission ∧
        rec.pnl = Spec.grossPnl pos entryPrice rec.exit_price size
          - Spec.commission entryPrice rec.exit_price size cfg.commission) ∧
    (∀ (cfg : Backtest.Config) (st : Backtest.RunState),
      (Backtest.calculate_results cfg st).total_pnl = qSum (st.trades.map Backtest.TradeRec.pnl)) ∧
    (∀ (price slip entry size : ℚ) (hist : List OrderManager.OMTrade) (rest : List Bool),
      ∃ rec : OrderManager.OMTrade,
        (OrderManager.close_position price slip
          { position := some { position := Position.LONG, entry_price := entry, size := size }
            trade_history := hist
            sink := true :: rest }).2.trade_history = hist ++ [rec] ∧
        rec.close_price = PrecisionManager.apply_slippage price false slip ∧
        rec.pnl = Spec.grossPnl Position.LONG entry rec.close_price size) ∧
    (∀ (price slip entry size : ℚ) (hist : List OrderManager.OMTrade) (rest : List Bool),
      ∃ rec : OrderManager.OMTrade,
        (OrderManager.close_position price slip
          { position := some { position := Position.SHORT, entry_price := entry, size := size }
            trade_history := hist
            sink := true :: rest }).2.trade_history = hist ++ [rec] ∧
        rec.close_price = PrecisionManager.apply_slippage price true slip ∧
        rec.pnl = Spec.grossPnl Position.SHORT entry rec.close_price size) ∧
    (∀ s : OrderManager.State,
      OrderManager.calculate_total_pnl s = qSum (s.trade_history.map OrderManager.OMTrade.pnl)) := by
  refine ⟨?_, ?_, ?_, ?_, fun _ => rfl⟩
  · intro cfg pos entryPrice exitRaw size entryTime exitTime reason st
    cases pos <;>
      exact ⟨_, rfl, rfl, rfl, by simp [Spec.grossPnl, Spec.commission, Backtest.close_position]⟩
  · intro cfg st
    by_cases he : st.trades = [] <;> simp [Backtest.calculate_results, he, qSum]
  · intro price slip entry size hist rest
    exact ⟨_, rfl, rfl, by simp [Spec.grossPnl, OrderManager.close_position,
      OrderManager.place_order]⟩
  · intro price slip entry size hist rest
    exact ⟨_, rfl, rfl, by simp [Spec.grossPnl, OrderManager.close_position,
      OrderManager.place_order]⟩

/-- C4 (counterexample).  The claim asserts netPnL = grossPnL -
commission for the live order-manager ledger as well; but closing a
long 1 @ 100 at 110 (no slippage) records pnl = 10, the full gross,
while gross minus commission at the system's 0.0004 rate is 9.916. -/
theorem C4_om_commission_counterexample :
    ((OrderManager.close_position 110 0 omLong100).2.trade_history.headD omTradeDummy).pnl = 10 ∧
    Spec.grossPnl Position.LONG 100 110 1 - Spec.commission 100 110 1 (4 / 10000) = 9916 / 1000 ∧
    ((OrderManager.close_position 110 0 omLong100).2.trade_history.headD omTradeDummy).pnl ≠
      Spec.grossPnl Position.LONG 100 110 1 - Spec.commission 100 110 1 (4 / 10000) := by
  decide

/-- C5 (counterexample).  A monotonically rising 300-candle series
(closes 10^7 + j^2, price above the reference line at every evaluated
candle, hence a single upward crossing at the first evaluated candle and
no crossing after it): the run opens exactly one trade, closes none by
signal, and the report's total_trades is 0, not 1 — an open position at
series end is never recorded as a trade. -/
theorem C5_total_trades_counterexample :
    strictlyIncreasingB (c5Df.map Candle.close) = true ∧
    ((List.range' 295 5).all (fun i =>
      decide (Strategy.calculate_rope_line 3 (c5Df.take (i + 1)) <
        lastClose (c5Df.take (i + 1)))) = true) ∧
    c5Run.2.opensCount = 1 ∧
    c5Run.2.signalClosesCount = 0 ∧
    c5Run.1.total_trades ≠ 1 := by
  decide

/-- C5 (amended).  Same run: exactly one trade opened, zero closed by
signal, and the final report's total_trades equals 0 (the report counts
only closed trades, and the single opened position is still open when
the series ends). -/
theorem C5_total_trades_amended :
    c5Run.2.opensCount = 1 ∧
    c5Run.2.signalClosesCount = 0 ∧
    c5Run.2.current_position = Position.LONG ∧
    c5Run.1.total_trades = 0 := by
  decide

/-- C9 (counterexample).  Flip case with a rejected close leg: holding a
short, an OpenLong signal whose close order is rejected and whose open
order is accepted leaves the instrument LONG — not in its prior (Short)
state — and records no trade for the never-closed short. -/
theorem C9_flip_leg_failure_counterexample :
    omShortFlip.position = some { position := Position.SHORT, entry_price := 100, size := 1 } ∧
    (OrderManager.execute_signal SignalType.LONG 110 1 0 omShortFlip).2.position =
      some { position := Position.LONG, entry_price := 110, size := 1 } ∧
    (OrderManager.execute_signal SignalType.LONG 110 1 0 omShortFlip).2.trade_history = [] ∧
    (OrderManager.execute_signal SignalType.LONG 110 1 0 omShortFlip).2.position ≠
      omShortFlip.position := by
  decide

/-- C9 (amended).  For non-flip operations a rejected order leaves the
ledger untouched: an open from Empty whose order is rejected records no
Position and no TradeRecord and returns failure, and a close whose
order is rejected leaves the existing Position and the trade history
unchanged.  (In the flip case the source ignores the close leg's
failure, as the counterexample shows.) -/
theorem C9_rejection_preserves_state :
    (∀ (price size slip : ℚ) (hist : List OrderManager.OMTrade) (rest : List Bool),
      OrderManager.execute_signal SignalType.LONG price size slip
        { position := none, trade_history := hist, sink := false :: rest } =
      (false, { position := none, trade_history := hist, sink := rest })) ∧
    (∀ (price size slip : ℚ) (hist : List OrderManager.OMTrade) (rest : List Bool),
      OrderManager.execute_signal SignalType.SHORT price size slip
        { position := none, trade_history := hist, sink := false :: rest } =
      (false, { position := none, trade_history := hist, sink := rest })) ∧
    (∀ (price size slip entry psize : ℚ) (hist : List OrderManager.OMTrade) (rest : List Bool),
      OrderManager.execute_signal SignalType.CLOSE_LONG price size slip
        { position := some { position := Position.LONG, entry_price := entry, size := psize }
          trade_history := hist
          sink := false :: rest } =
      (true, { position := some { position := Position.LONG, entry_price := entry, size := psize }
               trade_history := hist
               sink := rest })) ∧
    (∀ (price size slip entry psize : ℚ) (hist : List OrderManager.OMTrade) (rest : List Bool),
      OrderManager.execute_signal SignalType.CLOSE_SHORT price size slip
        { position := some { position := Position.SHORT, entry_price := entry, size := psize }
          trade_history := hist
          sink := false :: rest } =
      (true, { position := some { position := Position.SHORT, entry_price := entry, size := psize }
               trade_history := hist
               sink := rest })) := by
  refine ⟨?_, ?_, ?_, ?_⟩ <;> intros <;> rfl

/-- C10.  Backtest.run resets the backtest-local state but not the
strategy's per-contract dedup state: two successive run() calls with
identical arguments on the same instances disagree — the first run's
single signal (timestamp 5) is remembered, so the second run's open is
suppressed, giving one closed trade versus none and different reports. -/
theorem C10_run_not_function_of_arguments :
    c10Run1.2.strat.lastSignalTime = some 5 ∧
    c10Run1.1.total_trades = 1 ∧
    c10Run2.1.total_trades = 0 ∧
    c10Run1.1 ≠ c10Run2.1 := by
  decide

/-- Positivity of a registered tick. -/
theorem PrecisionManager.tickValue_pos (info : PrecisionManager.ContractInfo)
    (htick : 1 ≤ info.tickNum) : 0 < PrecisionManager.tickValue info := by
  have h1 : (0 : ℚ) < (info.tickNum : ℚ) := by exact_mod_cast Nat.lt_of_lt_of_le Nat.zero_lt_one htick
  exact div_pos h1 (by positivity)

/-- For a positive price over a positive tick, int() truncation is the
floor and the down-aligned tick count is the floor of price / tick. -/
theorem PrecisionManager.aligned_ticks_down (info : PrecisionManager.ContractInfo) (price : ℚ)
    (htick : 1 ≤ info.tickNum) (hprice : 0 < price) :
    PrecisionManager.aligned_ticks info price false =
      ⌊price / PrecisionManager.tickValue info⌋ := by
  have hticks : 0 ≤ price / PrecisionManager.tickValue info :=
    (div_pos hprice (PrecisionManager.tickValue_pos info htick)).le
  simp [PrecisionManager.aligned_ticks, PrecisionManager.pyTrunc, hticks]

/-- C6.  round_price with direction down returns the greatest tick
multiple that does not exceed the price, and with direction up the least
tick multiple that is at least the price; on the registered tick 0.1
(precision 1) and price 67892.567 the returned strings are exactly
"67892.5" and "67892.6". -/
theorem C6_round_price :
    (∀ (info : PrecisionManager.ContractInfo) (price : ℚ),
      1 ≤ info.tickNum → 0 < price →
      (PrecisionManager.round_price_val info price false ≤ price ∧
        ∀ j : ℤ, PrecisionManager.tickValue info * j ≤ price →
          j ≤ PrecisionManager.aligned_ticks info price false) ∧
      (price ≤ PrecisionManager.round_price_val info price true ∧
        ∀ j : ℤ, price ≤ PrecisionManager.tickValue info * j →
          PrecisionManager.aligned_ticks info price true ≤ j)) ∧
    PrecisionManager.round_price { tickNum := 1, tickExp := 1, size_precision := 1 }
      (67892567 / 1000) false = "67892.5" ∧
    PrecisionManager.round_price { tickNum := 1, tickExp := 1, size_precision := 1 }
      (67892567 / 1000) true = "67892.6" := by
  refine ⟨?_, by decide, by decide⟩
  intro info price htick hprice
  have htv := PrecisionManager.tickValue_pos info htick
  have hticks : 0 ≤ price / PrecisionManager.tickValue info := (div_pos hprice htv).le
  have htr : PrecisionManager.pyTrunc (price / PrecisionManager.tickValue info) =
      ⌊price / PrecisionManager.tickValue info⌋ := by
    simp [PrecisionManager.pyTrunc, hticks]
  have hcancel : PrecisionManager.tickValue info * (price / PrecisionManager.tickValue info)
      = price := by field_simp
  refine ⟨⟨?_, ?_⟩, ?_⟩
  · rw [PrecisionManager.round_price_val, PrecisionManager.aligned_ticks_down info price htick hprice]
    calc PrecisionManager.tickValue info * (⌊price / PrecisionManager.tickValue info⌋ : ℚ)
        ≤ PrecisionManager.tickValue info * (price / PrecisionManager.tickValue info) :=
          mul_le_mul_of_nonneg_left (Int.floor_le _) htv.le
      _ = price := hcancel
  · intro j hj
    rw [PrecisionManager.aligned_ticks_down info price htick hprice]
    apply Int.le_floor.mpr
    rw [le_div_iff₀ htv]
    calc (j : ℚ) * PrecisionManager.tickValue info
        = PrecisionManager.tickValue info * j := mul_comm _ _
      _ ≤ price := hj
  · by_cases hfr : ((⌊price / PrecisionManager.tickValue info⌋ : ℚ))
        < price / PrecisionManager.tickValue info
    · have ha : PrecisionManager.aligned_ticks info price true =
          ⌊price / PrecisionManager.tickValue info⌋ + 1 := by
        simp [PrecisionManager.aligned_ticks, PrecisionManager.pyTrunc, hticks, hfr]
      refine ⟨?_, ?_⟩
      · rw [PrecisionManager.round_price_val, ha]
        have h2 : price / PrecisionManager.tickValue info
            ≤ (⌊price / PrecisionManager.tickValue info⌋ : ℚ) + 1 :=
          (Int.lt_floor_add_one _).le
        calc price = PrecisionManager.tickValue info * (price / PrecisionManager.tickValue info) :=
              hcancel.symm
          _ ≤ PrecisionManager.tickValue info * ((⌊price / PrecisionManager.tickValue info⌋ : ℚ) + 1) :=
              mul_le_mul_of_nonneg_left h2 htv.le
          _ = PrecisionManager.tickValue info * ((⌊price / PrecisionManager.tickValue info⌋ + 1 : ℤ) : ℚ) := by
              push_cast
              ring
      · intro j hj
        rw [ha]
        have hq : price / PrecisionManager.tickValue info ≤ (j : ℚ) := by
          rw [div_le_iff₀ htv]
          calc price ≤ PrecisionManager.tickValue info * j := hj
            _ = (j : ℚ) * PrecisionManager.tickValue info := mul_comm _ _
        have hlt : ((⌊price / PrecisionManager.tickValue info⌋ : ℤ) : ℚ) < (j : ℚ) :=
          lt_of_lt_of_le hfr hq
        exact Int.lt_iff_add_one_le.mp (by exact_mod_cast hlt)
    · have heq : ((⌊price / PrecisionManager.tickValue info⌋ : ℤ) : ℚ)
          = price / PrecisionManager.tickValue info :=
        le_antisymm (Int.floor_le _) (not_lt.mp hfr)
      have ha : PrecisionManager.aligned_ticks info price true =
          ⌊price / PrecisionManager.tickValue info⌋ := by
        simp [PrecisionManager.aligned_ticks, PrecisionManager.pyTrunc, hticks, hfr]
      refine ⟨?_, ?_⟩
      · rw [PrecisionManager.round_price_val, ha, heq, hcancel]
      · intro j hj
        rw [ha]
        have hq : price / PrecisionManager.tickValue info ≤ (j : ℚ) := by
          rw [div_le_iff₀ htv]
          calc price ≤ PrecisionManager.tickValue info * j := hj
            _ = (j : ℚ) * PrecisionManager.tickValue info := mul_comm _ _
        have hcast : ((⌊price / PrecisionManager.tickValue info⌋ : ℤ) : ℚ) ≤ (j : ℚ) := heq ▸ hq
        exact_mod_cast hcast

/-- C6 witness: the general bound applied to tick 0.1 and price
67892.567. -/
theorem C6_round_price_witness :
    PrecisionManager.round_price_val { tickNum := 1, tickExp := 1, size_precision := 1 }
      (67892567 / 1000) false ≤ 67892567 / 1000 :=
  (C6_round_price.1 { tickNum := 1, tickExp := 1, size_precision := 1 } (67892567 / 1000)
    (by decide) (by decide)).1.1

/-- pyTrunc is the identity on integer rationals. -/
theorem PrecisionManager.pyTrunc_intCast (n : ℤ) : PrecisionManager.pyTrunc (n : ℚ) = n := by
  by_cases h : (0 : ℚ) ≤ (n : ℚ) <;> simp [PrecisionManager.pyTrunc, h]

/-- Round half to even is the identity on integer rationals. -/
theorem PrecisionManager.halfEvenRound_intCast (n : ℤ) :
    PrecisionManager.halfEvenRound (n : ℚ) = n := by
  simp [PrecisionManager.halfEvenRound]

/-- Closed form of round_size_val at precision 0. -/
theorem PrecisionManager.round_size_val_zero (size : ℚ) :
    PrecisionManager.round_size_val 0 size =
      ((PrecisionManager.halfEvenRound
        ((PrecisionManager.pyTrunc (size * 10) : ℚ) / 10) : ℤ) : ℚ) := by
  simp [PrecisionManager.round_size_val]

/-- Closed form of round_size_val at positive precision. -/
theorem PrecisionManager.round_size_val_pos (p : ℕ) (hp : p ≠ 0) (size : ℚ) :
    PrecisionManager.round_size_val p size =
      (PrecisionManager.pyTrunc (size * 10 ^ p) : ℚ) / 10 ^ p := by
  simp [PrecisionManager.round_size_val, hp]

/-- round_size_val at precision 0 fixes integer values. -/
theorem PrecisionManager.round_size_val_zero_int (n : ℤ) :
    PrecisionManager.round_size_val 0 (n : ℚ) = (n : ℚ) := by
  rw [PrecisionManager.round_size_val_zero]
  rw [show ((n : ℚ) * 10) = ((n * 10 : ℤ) : ℚ) by push_cast; ring]
  rw [PrecisionManager.pyTrunc_intCast]
  rw [show (((n * 10 : ℤ) : ℚ) / 10) = (n : ℚ) by push_cast; ring]
  rw [PrecisionManager.halfEvenRound_intCast]

/-- round_size_val at positive precision fixes values already on the
10 ^ -p grid. -/
theorem PrecisionManager.round_size_val_pos_fixed (p : ℕ) (hp : p ≠ 0) (m : ℤ) :
    PrecisionManager.round_size_val p ((m : ℚ) / 10 ^ p) = (m : ℚ) / 10 ^ p := by
  rw [PrecisionManager.round_size_val_pos p hp]
  rw [show ((m : ℚ) / 10 ^ p * 10 ^ p) = ((m : ℤ) : ℚ) by field_simp]
  rw [PrecisionManager.pyTrunc_intCast]

/-- C7 (counterexample).  At lot precision 0 the quantize string is
built as '0.' + '0' * (-1) + '1' = '0.1', so the size is truncated at
ONE decimal and then the f"{x:.0f}" rendering rounds half-even:
round_size(0.96) denotes 1, which exceeds 0.96. -/
theorem C7_round_size_counterexample :
    PrecisionManager.round_size_val 0 (96 / 100) = 1 ∧
    ¬ PrecisionManager.round_size_val 0 (96 / 100) ≤ 96 / 100 := by
  decide

/-- C7 (amended).  round_size is idempotent for every lot precision, and
for every precision ≥ 1 (where the quantize string is well formed) its
value never exceeds the input: truncation only. -/
theorem C7_round_size_trunc (precision : ℕ) (size : ℚ) (hsz : 0 ≤ size) :
    PrecisionManager.round_size_val precision (PrecisionManager.round_size_val precision size) =
      PrecisionManager.round_size_val precision size ∧
    (1 ≤ precision → PrecisionManager.round_size_val precision size ≤ size) := by
  constructor
  · by_cases hp : precision = 0
    · subst hp
      rw [PrecisionManager.round_size_val_zero size]
      exact PrecisionManager.round_size_val_zero_int _
    · rw [PrecisionManager.round_size_val_pos precision hp size]
      exact PrecisionManager.round_size_val_pos_fixed precision hp _
  · intro hp
    have hp0 : precision ≠ 0 := by omega
    rw [PrecisionManager.round_size_val_pos precision hp0]
    have hnn : (0 : ℚ) ≤ size * 10 ^ precision := by positivity
    rw [show PrecisionManager.pyTrunc (size * 10 ^ precision)
        = ⌊size * 10 ^ precision⌋ by simp [PrecisionManager.pyTrunc, hnn]]
    rw [div_le_iff₀ (by positivity : (0 : ℚ) < 10 ^ precision)]
    exact Int.floor_le _

/-- C7 witness: precision 2 on size 1.23456. -/
theorem C7_round_size_trunc_witness :
    PrecisionManager.round_size_val 2 (PrecisionManager.round_size_val 2 (123456 / 100000)) =
      PrecisionManager.round_size_val 2 (123456 / 100000) ∧
    PrecisionManager.round_size_val 2 (123456 / 100000) ≤ 123456 / 100000 :=
  ⟨(C7_round_size_trunc 2 (123456 / 100000) (by decide)).1,
    (C7_round_size_trunc 2 (123456 / 100000) (by decide)).2 (by decide)⟩

/-- C1 witness: the invariance applied to the 51-candle history and a
perturbed in-progress row. -/
theorem C1_referenceLine_excludes_inprogress_witness :
    RopeLineStrategy.calculate_rope_line 50 flat51 true =
      RopeLineStrategy.calculate_rope_line 50 (flat51.dropLast ++ [perturbedLast]) true :=
  (C1_referenceLine_excludes_inprogress 50 flat51 perturbedLast (by decide)).1

/-- The clock never moves backwards through a wait loop. -/
theorem RateLimiter.wait_loop_clock_le (cap : ℕ) (w : ℚ) (q : List ℚ) (c : ℚ) :
    c ≤ (RateLimiter.wait_loop cap w q c).2 := by
  induction q generalizing c with
  | nil => exact le_refl c
  | cons o rest ih =>
    simp only [RateLimiter.wait_loop]
    split_ifs with hfull hwait
    · exact le_refl c
    · have hc : c ≤ o + w := by linarith
      exact le_trans hc (ih (o + w))
    · exact ih c

/-- The queue surviving a wait loop is a suffix of the input queue, and
every evicted entry left its trailing window no later than the final
clock. -/
theorem RateLimiter.wait_loop_decomp (cap : ℕ) (w : ℚ) (q : List ℚ) (c : ℚ) :
    ∃ p, q = p ++ (RateLimiter.wait_loop cap w q c).1 ∧
      ∀ x ∈ p, x + w ≤ (RateLimiter.wait_loop cap w q c).2 := by
  induction q generalizing c with
  | nil => exact ⟨[], rfl, by simp⟩
  | cons o rest ih =>
    simp only [RateLimiter.wait_loop]
    split_ifs with hfull hwait
    · exact ⟨[], rfl, by simp⟩
    · obtain ⟨p, hp, hb⟩ := ih (o + w)
      refine ⟨o :: p, by rw [List.cons_append, ← hp], ?_⟩
      intro x hx
      rcases List.mem_cons.mp hx with heq | hx2
      · subst heq
        exact RateLimiter.wait_loop_clock_le cap w rest (x + w)
      · exact hb x hx2
    · obtain ⟨p, hp, hb⟩ := ih c
      refine ⟨o :: p, by rw [List.cons_append, ← hp], ?_⟩
      intro x hx
      rcases List.mem_cons.mp hx with heq | hx2
      · subst heq
        have hxw : x + w ≤ c := by linarith [not_lt.mp hwait]
        exact le_trans hxw (RateLimiter.wait_loop_clock_le cap w rest c)
      · exact hb x hx2

/-- A wait loop always exits strictly below capacity (capacity ≥ 1). -/
theorem RateLimiter.wait_loop_length_lt (cap : ℕ) (w : ℚ) (q : List ℚ) (c : ℚ)
    (hcap : 1 ≤ cap) : (RateLimiter.wait_loop cap w q c).1.length < cap := by
  induction q generalizing c with
  | nil => exact hcap
  | cons o rest ih =>
    simp only [RateLimiter.wait_loop]
    split_ifs with hfull hwait
    · exact hfull
    · exact ih (o + w)
    · exact ih c

/-- Extending a trace whose last cap-block is short: if the trace ends in
fewer than cap retained entries and everything before them is at least w
below the new timestamp, the gap property extends to the appended
admission. -/
theorem RateLimiter.gap_extend (cap : ℕ) (w : ℚ) (P Q : List ℚ) (c : ℚ)
    (hold : RateLimiter.GapOK cap w (P ++ Q)) (hQ : Q.length < cap)
    (hP : ∀ x ∈ P, x + w ≤ c) :
    RateLimiter.GapOK cap w (P ++ Q ++ [c]) := by
  intro i j hi hj hij
  simp only [List.get_eq_getElem]
  by_cases hjA : j < (P ++ Q).length
  · have hiA : i < (P ++ Q).length := by omega
    rw [List.getElem_append_left hiA, List.getElem_append_left hjA]
    have h0 := hold i j hiA hjA hij
    simpa using h0
  · have hexp : (P ++ Q).length = P.length + Q.length := List.length_append P Q
    have hexp2 : (P ++ Q ++ [c]).length = P.length + Q.length + 1 := by
      simp
      omega
    have hj2 : j = (P ++ Q).length := by omega
    have hiP : i < P.length := by omega
    rw [List.getElem_concat_length (P ++ Q) c j hj2]
    rw [List.getElem_append_left (show i < (P ++ Q).length by omega)]
    rw [List.getElem_append_left hiP]
    exact hP _ (List.getElem_mem hiP)

/-- The gap property restricts to the tail. -/
theorem RateLimiter.gapOK_tail (cap : ℕ) (w : ℚ) (a : ℚ) (rest : List ℚ)
    (h : RateLimiter.GapOK cap w (a :: rest)) : RateLimiter.GapOK cap w rest := by
  intro i j hi hj hij
  have h2 := h (i + 1) (j + 1) (by simpa using Nat.succ_lt_succ hi)
    (by simpa using Nat.succ_lt_succ hj) (by omega)
  simpa using h2

/-- In a sorted list, entries of the n-th tail dominate the n-th entry. -/
theorem RateLimiter.mem_drop_ge (l : List ℚ) :
    l.Sorted (· ≤ ·) → ∀ (n : ℕ) (hn : n < l.length), ∀ x ∈ l.drop n, l.get ⟨n, hn⟩ ≤ x := by
  induction l with
  | nil =>
    intro _ n hn
    simp at hn
  | cons a rest ih =>
    intro hs n hn x hx
    cases n with
    | zero =>
      simp only [List.drop_zero] at hx
      rcases List.mem_cons.mp hx with heq | hx2
      · subst heq
        exact le_refl _
      · exact (List.sorted_cons.mp hs).1 x hx2
    | succ m =>
      have hm : m < rest.length := by simpa using Nat.lt_of_succ_lt_succ hn
      have hx2 : x ∈ rest.drop m := by simpa using hx
      have h2 := ih (List.sorted_cons.mp hs).2 m hm x hx2
      simpa using h2

/-- The per-window bound: a sorted admission trace with the gap property
has at most cap entries in any trailing window of length w. -/
theorem RateLimiter.windowCount_le (cap : ℕ) (w : ℚ) (tr : List ℚ) (t : ℚ) :
    tr.Sorted (· ≤ ·) → RateLimiter.GapOK cap w tr →
    RateLimiter.windowCount w t tr ≤ cap := by
  induction tr with
  | nil =>
    intro _ _
    simp [RateLimiter.windowCount]
  | cons a rest ih =>
    intro hs hg
    by_cases hpred : t - w < a ∧ a ≤ t
    · unfold RateLimiter.windowCount
      conv_lhs => rw [← List.take_append_drop cap (a :: rest)]
      rw [List.countP_append]
      have htake : (List.take cap (a :: rest)).countP
          (fun x => decide (t - w < x ∧ x ≤ t)) ≤ cap := by
        refine le_trans (List.countP_le_length _) ?_
        rw [List.length_take]
        exact min_le_left _ _
      have hdrop : (List.drop cap (a :: rest)).countP
          (fun x => decide (t - w < x ∧ x ≤ t)) = 0 := by
        rw [List.countP_eq_zero]
        intro x hx
        have hcl : cap < (a :: rest).length := by
          by_contra hle
          rw [List.drop_eq_nil_of_le (by omega)] at hx
          exact absurd hx (List.not_mem_nil x)
        have hgi : (a :: rest).get ⟨0, by simp⟩ + w ≤ (a :: rest).get ⟨cap, hcl⟩ :=
          hg 0 cap (by simp) hcl (by omega)
        have hmono : (a :: rest).get ⟨cap, hcl⟩ ≤ x :=
          RateLimiter.mem_drop_ge (a :: rest) hs cap hcl x hx
        have hax : a + w ≤ x := by
          have hget0 : (a :: rest).get ⟨0, by simp⟩ = a := rfl
          rw [hget0] at hgi
          linarith
        simp only [decide_eq_true_eq]
        rintro ⟨hlt, hle⟩
        linarith [hpred.1]
      omega
    · unfold RateLimiter.windowCount
      rw [List.countP_cons_of_neg _ _ (by simpa using hpred)]
      exact ih (List.sorted_cons.mp hs).2 (RateLimiter.gapOK_tail cap w a rest hg)

/-- One acquire call preserves the governor invariant. -/
theorem RateLimiter.acquire_inv (cfg : RateLimiter.Config) (gap : ℚ) (s : RateLimiter.State)
    (h1 : 1 ≤ cfg.maxPerSecond) (h60 : 1 ≤ cfg.maxPerMinute) (hgap : 0 ≤ gap)
    (hinv : RateLimiter.Inv cfg s) : RateLimiter.Inv cfg (RateLimiter.acquire cfg gap s) := by
  obtain ⟨⟨hsl, ps, hps, hbs⟩, ⟨hml, pm, hpm, hbm⟩, helem, hsort, hg1, hg60⟩ := hinv
  obtain ⟨d1, hd1, hb1⟩ :=
    RateLimiter.wait_loop_decomp cfg.maxPerSecond 1 s.second_queue (s.clock + gap)
  obtain ⟨d2, hd2, hb2⟩ := RateLimiter.wait_loop_decomp cfg.maxPerMinute 60 s.minute_queue
    (RateLimiter.wait_loop cfg.maxPerSecond 1 s.second_queue (s.clock + gap)).2
  have hlen1 :=
    RateLimiter.wait_loop_length_lt cfg.maxPerSecond 1 s.second_queue (s.clock + gap) h1
  have hlen2 := RateLimiter.wait_loop_length_lt cfg.maxPerMinute 60 s.minute_queue
    (RateLimiter.wait_loop cfg.maxPerSecond 1 s.second_queue (s.clock + gap)).2 h60
  have hc1 := RateLimiter.wait_loop_clock_le cfg.maxPerSecond 1 s.second_queue (s.clock + gap)
  have hc2 := RateLimiter.wait_loop_clock_le cfg.maxPerMinute 60 s.minute_queue
    (RateLimiter.wait_loop cfg.maxPerSecond 1 s.second_queue (s.clock + gap)).2
  simp only [RateLimiter.acquire]
  generalize hq1 : RateLimiter.wait_loop cfg.maxPerSecond 1 s.second_queue (s.clock + gap) = W1
    at hd1 hb1 hlen1 hlen2 hc1 hc2 hd2 hb2 ⊢
  generalize hq2 : RateLimiter.wait_loop cfg.maxPerMinute 60 s.minute_queue W1.2 = W2
    at hd2 hb2 hlen2 hc2 ⊢
  have hcl : s.clock ≤ W2.2 := by linarith
  have hbs1 : ∀ x ∈ ps ++ d1, x + 1 ≤ W2.2 := by
    intro x hx
    rcases List.mem_append.mp hx with h | h
    · exact le_trans (hbs x h) hcl
    · exact le_trans (hb1 x h) hc2
  have hbm1 : ∀ x ∈ pm ++ d2, x + 60 ≤ W2.2 := by
    intro x hx
    rcases List.mem_append.mp hx with h | h
    · exact le_trans (hbm x h) hcl
    · exact hb2 x h
  have hA1 : s.admitted = (ps ++ d1) ++ W1.1 := by rw [hps, hd1, List.append_assoc]
  have hA2 : s.admitted = (pm ++ d2) ++ W2.1 := by rw [hpm, hd2, List.append_assoc]
  refine ⟨⟨?_, ps ++ d1, ?_, ?_⟩, ⟨?_, pm ++ d2, ?_, ?_⟩, ?_, ?_, ?_, ?_⟩
  · show (W1.1 ++ [W2.2]).length ≤ cfg.maxPerSecond
    simp only [List.length_append, List.length_cons, List.length_nil]
    omega
  · show s.admitted ++ [W2.2] = (ps ++ d1) ++ (W1.1 ++ [W2.2])
    rw [hA1, List.append_assoc]
  · exact hbs1
  · show (W2.1 ++ [W2.2]).length ≤ cfg.maxPerMinute
    simp only [List.length_append, List.length_cons, List.length_nil]
    omega
  · show s.admitted ++ [W2.2] = (pm ++ d2) ++ (W2.1 ++ [W2.2])
    rw [hA2, List.append_assoc]
  · exact hbm1
  · show ∀ x ∈ s.admitted ++ [W2.2], x ≤ W2.2
    intro x hx
    rcases List.mem_append.mp hx with h | h
    · exact le_trans (helem x h) hcl
    · rw [List.mem_singleton] at h
      subst h
      exact le_refl _
  · show (s.admitted ++ [W2.2]).Sorted (· ≤ ·)
    refine List.pairwise_append.mpr ⟨hsort, List.pairwise_singleton _ _, ?_⟩
    intro x hx y hy
    rw [List.mem_singleton] at hy
    subst hy
    exact le_trans (helem x hx) hcl
  · show RateLimiter.GapOK cfg.maxPerSecond 1 (s.admitted ++ [W2.2])
    rw [hA1]
    exact RateLimiter.gap_extend _ _ _ _ _ (hA1 ▸ hg1) hlen1 hbs1
  · show RateLimiter.GapOK cfg.maxPerMinute 60 (s.admitted ++ [W2.2])
    rw [hA2]
    exact RateLimiter.gap_extend _ _ _ _ _ (hA2 ▸ hg60) hlen2 hbm1

/-- The freshly constructed governor satisfies the invariant. -/
theorem RateLimiter.init_inv (cfg : RateLimiter.Config) :
    RateLimiter.Inv cfg RateLimiter.init := by
  refine ⟨⟨by simp [RateLimiter.init], [], by simp [RateLimiter.init], by simp⟩,
    ⟨by simp [RateLimiter.init], [], by simp [RateLimiter.init], by simp⟩,
    by simp [RateLimiter.init], by simp [RateLimiter.init, List.sorted_nil], ?_, ?_⟩ <;>
  · intro i j hi hj hij
    simp [RateLimiter.init] at hi

/-- A sequence of nonnegative-gap acquire calls preserves the invariant. -/
theorem RateLimiter.runAcquires_inv (cfg : RateLimiter.Config) (gaps : List ℚ)
    (h1 : 1 ≤ cfg.maxPerSecond) (h60 : 1 ≤ cfg.maxPerMinute) :
    ∀ s0 : RateLimiter.State, (∀ g ∈ gaps, 0 ≤ g) → RateLimiter.Inv cfg s0 →
      RateLimiter.Inv cfg (RateLimiter.runAcquires cfg gaps s0) := by
  induction gaps with
  | nil =>
    intro s0 _ hinv
    simpa [RateLimiter.runAcquires] using hinv
  | cons g rest ih =>
    intro s0 hg hinv
    have h2 := ih (RateLimiter.acquire cfg g s0) (fun x hx => hg x (List.mem_cons_of_mem _ hx))
      (RateLimiter.acquire_inv cfg g s0 h1 h60 (hg g (List.mem_cons_self _ _)) hinv)
    simpa [RateLimiter.runAcquires] using h2

/-- Every acquire call records exactly one admission: nothing is dropped. -/
theorem RateLimiter.runAcquires_admitted_length (cfg : RateLimiter.Config) (gaps : List ℚ) :
    ∀ s0 : RateLimiter.State,
      (RateLimiter.runAcquires cfg gaps s0).admitted.length =
        s0.admitted.length + gaps.length := by
  induction gaps with
  | nil =>
    intro s0
    simp [RateLimiter.runAcquires]
  | cons g rest ih =>
    intro s0
    have h2 := ih (RateLimiter.acquire cfg g s0)
    simp only [RateLimiter.runAcquires, List.foldl_cons] at h2 ⊢
    rw [h2]
    simp [RateLimiter.acquire]
    omega

/-- C8.  For every sequence of sequential acquire() calls on a governor
with maxPerSecond ≥ 1 and maxPerMinute ≥ 1, no trailing 1-second window
of the recorded admissions holds more than maxPerSecond entries and no
trailing 60-second window more than maxPerMinute; both timestamp queues
stay within their configured capacities; and every call records exactly
one admission — requests block (wait inside acquire) rather than being
dropped. -/
theorem C8_rate_governor (cfg : RateLimiter.Config) (gaps : List ℚ)
    (h1 : 1 ≤ cfg.maxPerSecond) (h60 : 1 ≤ cfg.maxPerMinute)
    (hg : ∀ g ∈ gaps, 0 ≤ g) :
    (∀ t : ℚ, RateLimiter.windowCount 1 t
        (RateLimiter.runAcquires cfg gaps RateLimiter.init).admitted ≤ cfg.maxPerSecond) ∧
    (∀ t : ℚ, RateLimiter.windowCount 60 t
        (RateLimiter.runAcquires cfg gaps RateLimiter.init).admitted ≤ cfg.maxPerMinute) ∧
    (RateLimiter.runAcquires cfg gaps RateLimiter.init).second_queue.length
        ≤ cfg.maxPerSecond ∧
    (RateLimiter.runAcquires cfg gaps RateLimiter.init).minute_queue.length
        ≤ cfg.maxPerMinute ∧
    (RateLimiter.runAcquires cfg gaps RateLimiter.init).admitted.length = gaps.length := by
  obtain ⟨⟨hsl, _⟩, ⟨hml, _⟩, _, hsort, hgap1, hgap60⟩ :=
    RateLimiter.runAcquires_inv cfg gaps h1 h60 RateLimiter.init hg (RateLimiter.init_inv cfg)
  refine ⟨fun t => RateLimiter.windowCount_le _ _ _ t hsort hgap1,
    fun t => RateLimiter.windowCount_le _ _ _ t hsort hgap60, hsl, hml, ?_⟩
  have h2 := RateLimiter.runAcquires_admitted_length cfg gaps RateLimiter.init
  simpa [RateLimiter.init] using h2

/-- C8 witness: two back-to-back calls on a 2-per-second, 3-per-minute
governor. -/
theorem C8_rate_governor_witness :
    RateLimiter.windowCount 1 1
      (RateLimiter.runAcquires { maxPerSecond := 2, maxPerMinute := 3 } [0, 0]
        RateLimiter.init).admitted ≤ 2 ∧
    (RateLimiter.runAcquires { maxPerSecond := 2, maxPerMinute := 3 } [0, 0]
      RateLimiter.init).admitted.length = 2 :=
  ⟨(C8_rate_governor { maxPerSecond := 2, maxPerMinute := 3 } [0, 0] (by decide) (by decide)
      (by decide)).1 1,
    (C8_rate_governor { maxPerSecond := 2, maxPerMinute := 3 } [0, 0] (by decide) (by decide)
      (by decide)).2.2.2.2⟩
